import Mathlib

/-!
Verification of the vaulty-mail session/admission/dispatch core.

Shallow embedding of:
  - src/vaulty-mail/server/src/controllers.rs (module postfix: functions email
    and attachment; function mailgun)
  - src/vaulty-mail/lib/src/db/db.rs (Client::get_address, insert_email,
    update_address_received_count)

Machine integers are modelled as Nat (usize) / Int (i32); the one place the
source computes with floating point (the `as f32` casts in the size-limit
check) is modelled by an exact integer model of IEEE-754 binary32
round-to-nearest-even, see f32round below.

External effects (the Postgres pool, the sender whitelist check, the storage
upload) are modelled as oracle inputs in an Env record: each fallible external
call is given its outcome as data, and the embedding records exactly which
calls the control flow of the source performs and in what order.
-/

namespace Vaulty

/-- `vaulty::email::Email` as used by the server code: uuid, sender, candidate
recipient list, optional message id, declared byte size (usize) and optional
declared attachment count. -/
structure Email where
  uuid : String
  sender : String
  recipients : List String
  message_id : Option String
  size : Nat
  num_attachments : Option Nat
deriving DecidableEq

/-- `vaulty::db::Address`: one row of the addresses table
(db.rs lines 28-39).  i32 columns become Int; `storage_backend` is kept as
the raw selector string it is parsed from. -/
structure Address where
  address : String
  user_id : Int
  max_email_size : Int
  quota : Int
  received : Int
  storage_token : String
  storage_backend : String
  storage_path : String
  last_renewal_time : Int
deriving DecidableEq

/-- `CacheEntry` (controllers.rs lines 14-18): the email and its resolved
address, held by the session cache. -/
structure CacheEntry where
  email : Email
  address : Address
deriving DecidableEq

/-- The session cache `MAIL_CACHE : RwLock<HashMap<String, CacheEntry>>`
(controllers.rs lines 20-22), modelled extensionally as a partial map from
email uuid to entry. -/
def Cache : Type := String → Option CacheEntry

/-- `HashMap::get`. -/
def Cache.get (c : Cache) (k : String) : Option CacheEntry := c k

/-- `HashMap::insert` (also models an in-place `get_mut` update). -/
def Cache.insert (c : Cache) (k : String) (v : CacheEntry) : Cache :=
  fun x => if x = k then some v else c x

/-- `HashMap::remove`. -/
def Cache.remove (c : Cache) (k : String) : Cache :=
  fun x => if x = k then none else c x

/-- `HashMap::new`. -/
def Cache.empty : Cache := fun _ => none

/-! ## Exact model of the `as f32` casts in the size check

controllers.rs lines 110-111 compare `email.size as f32 > max_email_size as
f32`.  Casting an integer to f32 rounds it to the nearest value with a 24-bit
significand (ties to even); comparing two such f32 values is the same as
comparing the rounded integers, since integer-to-binary32 rounding is monotone
and both magnitudes stay far below the f32 overflow threshold (usize < 2^64,
i32 magnitude <= 2^31). -/

/-- Smallest positive shift `s` with `n < 2 ^ (24 + s)`; total because every
integer the source can produce is below `2 ^ 88`. -/
def f32shift (n : Nat) : Nat :=
  (((List.range 64).map (fun s => s + 1)).find? (fun s => n < 2 ^ (24 + s))).getD 64

/-- Round a natural number to the nearest integer representable with a 24-bit
significand (round half to even) — the value of `(n as f32)` for
`n < 2 ^ 88`. -/
def f32round (n : Nat) : Nat :=
  if n < 2 ^ 24 then n
  else
    let s := f32shift n
    let q := n / 2 ^ s
    let r := n % 2 ^ s
    let half := 2 ^ (s - 1)
    let q2 := if half < r || (r == half && q % 2 == 1) then q + 1 else q
    q2 * 2 ^ s

/-- The value of `(i as f32)` for an i32/smallish Int, as an exact integer. -/
def f32ofInt : Int → Int
  | Int.ofNat n => Int.ofNat (f32round n)
  | Int.negSucc n => -Int.ofNat (f32round (n + 1))

/-- controllers.rs lines 110-111:
`let max_email_size = address.max_email_size as f32;`
`let is_mail_size_exceeded = email.size as f32 > max_email_size;` -/
def is_mail_size_exceeded (size : Nat) (max_email_size : Int) : Bool :=
  decide (f32ofInt max_email_size < f32ofInt (Int.ofNat size))

/-! ## db.rs -/

/-- `Client::get_address` (db.rs lines 85-122): runs
`SELECT * FROM addresses WHERE address IN (recipients)` and takes the first
row the database returns.  The query has no ORDER BY, so the row order is the
database's scan order; the model takes the table in its row order and returns
the first row whose address column is among the candidates.  (The source's
doc comment claims the first *valid recipient in the provided list* is
returned; see the C8 theorems.) -/
def get_address (table : List Address) (recipients : List String) : Option Address :=
  table.find? (fun row => recipients.contains row.address)

/-- The recipient read performed by `Client::insert_email` (db.rs lines
179-180): `let recipient = &email.recipients[0];` — an unguarded index 0,
`none` models the index-out-of-bounds panic on an empty list. -/
def insert_email_recipient (e : Email) : Option String := e.recipients.head?

/-- Modelled from the spec: `AddressDirectory.resolve` as the spec words it —
"first match among candidates", i.e. the first candidate *in list order* that
exists in the directory.  Stated only to compare against `get_address`. -/
def firstResolving (table : List Address) (recipients : List String) : Option String :=
  recipients.find? (fun r => table.any (fun row => row.address == r))

/-- A candidate address exists in the address directory. -/
def resolves (table : List Address) (r : String) : Bool :=
  table.any (fun row => row.address == r)

/-! ## postfix::email (controllers.rs lines 27-181) -/

/-- Which rejection message the size/quota block formats (controllers.rs
lines 116-127): the message text is abstracted to its format string and
arguments (the `{:.2} MB` decimal rendering is not modelled). -/
inductive RejectMsg where
  | sizeMsg (recipient : String) (max_email_size : Int)
  | quotaMsg (recipient : String) (quota : Int)
deriving DecidableEq

/-- The value `postfix::email` resolves to, mirroring the server's
`super::error::Error` variants actually raised on each path plus the Ok
response.  `dbError` stands for `Error::from(e)` applied to a database /
whitelist-check error. -/
inductive Outcome where
  | accepted (email : Email) (address : Address)
  | dbError
  | invalidRecipient
  | senderNotWhitelisted (recipient : String)
  | quotaExceeded (msg : RejectMsg)
deriving DecidableEq

def Outcome.isAccepted : Outcome → Bool
  | .accepted _ _ => true
  | _ => false

/-- Oracle outcomes for the external calls `postfix::email` makes, in source
order: `get_address`, `Address::validate_sender`, `Client::insert_email`,
`Address::update_received_count`.  `table` is the addresses table consulted
by `get_address`. -/
structure Env where
  table : List Address
  get_address_fails : Bool
  validate_sender_fails : Bool
  validate_sender_ok : Bool
  insert_email_fails : Bool
  update_received_fails : Bool
deriving DecidableEq

/-- Everything observable about one run of `postfix::email`: the outcome, how
many times the received-count increment (`UPDATE addresses SET received =
received + 1`) executed successfully, and the cache insertion performed (key
and entry), if any. -/
structure EmailResult where
  outcome : Outcome
  increments : Nat
  cache_insert : Option (String × CacheEntry)
deriving DecidableEq

def EmailResult.acceptedEmail (r : EmailResult) : Option Email :=
  match r.outcome with
  | .accepted e _ => some e
  | _ => none

/-- `postfix::email` (controllers.rs lines 27-181), side effects on the log
table elided (best-effort writes the source ignores):
resolve the address, reject if none; narrow the recipient list with
`email.recipients.retain(|r| r == recipient)`; check the whitelist; insert
the email row; evaluate the size/quota limits (rejecting with
`Error::QuotaExceeded(msg)` where `msg` prefers the size text); increment the
received count; finally create a cache entry when `email.num_attachments` is
`Some(_)`. -/
def process_email (env : Env) (e : Email) : EmailResult :=
  if env.get_address_fails then ⟨.dbError, 0, none⟩ else
  match get_address env.table e.recipients with
  | none => ⟨.invalidRecipient, 0, none⟩
  | some address =>
    let recipient := address.address
    let e2 : Email := { e with recipients := e.recipients.filter (fun r => r == recipient) }
    if env.validate_sender_fails then ⟨.dbError, 0, none⟩
    else if !env.validate_sender_ok then ⟨.senderNotWhitelisted recipient, 0, none⟩
    else if env.insert_email_fails then ⟨.dbError, 0, none⟩
    else
      let size_exceeded := is_mail_size_exceeded e2.size address.max_email_size
      let quota_exceeded := decide (address.quota < address.received + 1)
      if quota_exceeded || size_exceeded then
        let msg := if size_exceeded then RejectMsg.sizeMsg recipient address.max_email_size
                   else RejectMsg.quotaMsg recipient address.quota
        ⟨.quotaExceeded msg, 0, none⟩
      else if env.update_received_fails then ⟨.dbError, 0, none⟩
      else
        let entry : Option (String × CacheEntry) :=
          if e2.num_attachments.isSome then some (e2.uuid, ⟨e2, address⟩) else none
        ⟨.accepted e2 address, 1, entry⟩

/-! ## postfix::attachment (controllers.rs lines 183-263) -/

/-- `postfix::attachment`: returns `none` where the source panics (the
`.unwrap()` of a missing cache entry at line 198, the unguarded
`email.recipients[0]` at line 204, the `.as_mut().unwrap()` of an absent
attachment count at line 213, and the debug-build underflow of `*count -= 1`
on a zero count).  Otherwise returns the cache after the decrement /
conditional removal (done in one write-lock critical section, lines 210-221,
*before* the upload), whether this call removed the session, and the response
status: `uploadOk` is the oracle outcome of `EmailHandler::handle`; on `false`
the source marks the email failed (best-effort) and surfaces an error. -/
def handle_attachment (c : Cache) (mail_id : String) (uploadOk : Bool) :
    Option (Cache × Bool × Bool) :=
  match c.get mail_id with
  | none => none
  | some entry =>
    match entry.email.recipients.head? with
    | none => none
    | some _recipient =>
      match entry.email.num_attachments with
      | none => none
      | some n =>
        match n with
        | 0 => none
        | m + 1 =>
          let removed := m == 0
          let c2 :=
            if removed then c.remove mail_id
            else c.insert mail_id
              { entry with email := { entry.email with num_attachments := some m } }
          some (c2, removed, uploadOk)

/-- Run a sequence of `postfix::attachment` calls for one email id (the
per-key critical sections of the source serialize concurrent calls for the
same id, so any interleaving is one such sequence), threading the cache and
counting how many of the calls removed the session.  Each list element is
that call's upload outcome. -/
def dispatchTrace : Cache → String → List Bool → Option (Cache × Nat)
  | c, _, [] => some (c, 0)
  | c, id, ok :: rest =>
    match handle_attachment c id ok with
    | none => none
    | some (c2, removed, _) =>
      match dispatchTrace c2 id rest with
      | none => none
      | some (cf, r) => some (cf, (if removed then 1 else 0) + r)

/-! ## mailgun (controllers.rs lines 266-357) -/

/-- One mailgun (pull-model) request with the outcomes of its external calls:
the Content-Type header, whether the email / attachment-list parses succeed,
the parsed email, and per attachment whether its fetch-and-dispatch
(`Attachment::fetch` then `EmailHandler::handle`) succeeded. -/
structure MailgunReq where
  content_type : Option String
  parse_email_ok : Bool
  parse_attachments_ok : Bool
  email : Email
  fetch_dispatch_ok : List Bool
deriving DecidableEq

/-- `mailgun` (controllers.rs lines 266-357): `true` iff the handler replies
success.  Missing or unsupported Content-Type and parse failures reject;
otherwise the request succeeds iff every attachment's fetch-and-dispatch
succeeded (the loop over `attachment_tasks` returns an error on the first
failed task).  Note the email admission task (lines 336-341) is commented out
in the source: no admission-pipeline call occurs on this path. -/
def mailgun_handler (r : MailgunReq) : Bool :=
  match r.content_type with
  | none => false
  | some ct =>
    if ct == "application/json" || ct == "application/x-www-form-urlencoded" then
      if r.parse_email_ok && r.parse_attachments_ok then
        r.fetch_dispatch_ok.all (fun b => b)
      else false
    else false

/-! ## Helper lemmas on the cache and on lists -/

theorem Cache.get_insert_self (c : Cache) (k : String) (v : CacheEntry) :
    (c.insert k v).get k = some v := by
  simp [Cache.get, Cache.insert]

theorem Cache.get_remove_self (c : Cache) (k : String) :
    (c.remove k).get k = none := by
  simp [Cache.get, Cache.remove]

theorem f32round_of_lt {n : Nat} (h : n < 2 ^ 24) : f32round n = n := by
  unfold f32round
  rw [if_pos h]

/-- In a list with exactly one element satisfying `p`, filtering for equality
with a member that satisfies `p` yields exactly that member. -/
theorem filter_eq_single (l : List String) (x : String) (p : String → Bool)
    (hc : l.countP p = 1) (hx : x ∈ l) (hpx : p x = true) :
    l.filter (fun r => r == x) = [x] := by
  have h1 : l.countP (fun r => r == x) ≤ l.countP p := by
    apply List.countP_mono_left
    intro a ha hax
    have hax2 : a = x := by simpa using hax
    rwa [hax2]
  have h2 : 0 < l.countP (fun r => r == x) := by
    rw [List.countP_pos_iff]
    exact ⟨x, hx, by simp⟩
  have h3 : l.countP (fun r => r == x) = 1 := by omega
  have h4 : (l.filter (fun r => r == x)).length = 1 := by
    rw [← List.countP_eq_length_filter]
    exact h3
  cases hf : l.filter (fun r => r == x) with
  | nil => rw [hf] at h4; simp at h4
  | cons y ys =>
    cases ys with
    | nil =>
      have hy : y ∈ l.filter (fun r => r == x) := by rw [hf]; simp
      have hyx : y = x := by
        have := (List.mem_filter.mp hy).2
        simpa using this
      rw [hyx]
    | cons z zs => rw [hf] at h4; simp at h4

/-- The address row `get_address` returns has its address column among the
candidates (the SQL WHERE clause) and present in the table. -/
theorem get_address_mem {table : List Address} {recipients : List String}
    {a : Address} (h : get_address table recipients = some a) :
    a.address ∈ recipients ∧ resolves table a.address = true := by
  constructor
  · have := List.find?_some h
    simpa using this
  · have ha : a ∈ table := List.mem_of_find?_eq_some h
    simp [resolves, List.any_eq_true]
    exact ⟨a, ha, rfl⟩

/-- Inversion for an accepted run of `postfix::email`: acceptance implies the
directory resolved some row, and the accepted email is the input with its
recipients narrowed by `retain(|r| r == recipient)`. -/
theorem process_email_accepted_inv {env : Env} {e e2 : Email}
    (h : (process_email env e).acceptedEmail = some e2) :
    ∃ a, get_address env.table e.recipients = some a
       ∧ e2 = { e with recipients := e.recipients.filter (fun r => r == a.address) } := by
  simp only [process_email, EmailResult.acceptedEmail] at h
  split at h
  case h_2 => simp at h
  case h_1 em ad heq =>
    simp only [Option.some.injEq] at h
    subst h
    split at heq
    · simp at heq
    split at heq
    · simp at heq
    next a ha =>
      refine ⟨a, ha, ?_⟩
      split at heq
      · simp at heq
      split at heq
      · simp at heq
      split at heq
      · simp at heq
      split at heq
      · simp at heq
      split at heq
      · simp at heq
      · simp at heq
        exact heq.1.symm

/-- A dispatch step on a session whose countdown is 1: the entry is removed
inside the same critical section as the decrement. -/
theorem handle_attachment_last (c : Cache) (id : String) (ok : Bool)
    (entry : CacheEntry)
    (hget : c.get id = some entry)
    (hrec : entry.email.recipients ≠ [])
    (hn : entry.email.num_attachments = some 1) :
    handle_attachment c id ok = some (c.remove id, true, ok) := by
  unfold handle_attachment
  rw [hget]
  cases hh : entry.email.recipients.head? with
  | none => exact absurd (List.head?_eq_none_iff.mp hh) hrec
  | some r => simp [hh, hn]

/-- A dispatch step on a session whose countdown is at least 2: the countdown
is decremented and the session stays in the cache. -/
theorem handle_attachment_mid (c : Cache) (id : String) (ok : Bool)
    (entry : CacheEntry) (m : Nat)
    (hget : c.get id = some entry)
    (hrec : entry.email.recipients ≠ [])
    (hn : entry.email.num_attachments = some (m + 2)) :
    handle_attachment c id ok =
      some (c.insert id
              { entry with email := { entry.email with num_attachments := some (m + 1) } },
            false, ok) := by
  unfold handle_attachment
  rw [hget]
  cases hh : entry.email.recipients.head? with
  | none => exact absurd (List.head?_eq_none_iff.mp hh) hrec
  | some r => simp [hh, hn]

/-! ## C1 -/

/-- C1: a session registered with countdown N >= 1 (hence, being the product
of an accepted email, a nonempty narrowed recipient list) survives any k < N
attachment-dispatch calls with countdown N - k, is gone after exactly N calls,
and exactly one removal happens, at the call that takes the countdown from 1
to 0 — regardless of each call's upload outcome (the `oks` list).  Each model
step is the source's single write-lock critical section (controllers.rs lines
210-221), which performs lookup, decrement and conditional removal atomically
and before the upload, so any concurrent interleaving for one id linearizes
to such a sequence. -/
theorem c1_session_countdown_no_leak (c : Cache) (id : String)
    (entry : CacheEntry) (N k : Nat) (oks : List Bool)
    (hget : c.get id = some entry)
    (hrec : entry.email.recipients ≠ [])
    (hn : entry.email.num_attachments = some N)
    (hN : 1 ≤ N)
    (hlen : oks.length = N)
    (hk : k ≤ N) :
    ∃ ck removals,
      dispatchTrace c id (oks.take k) = some (ck, removals)
      ∧ (k < N → ∃ ek, ck.get id = some ek
            ∧ ek.email.num_attachments = some (N - k)
            ∧ ek.email.recipients = entry.email.recipients)
      ∧ (k = N → ck.get id = none)
      ∧ removals = (if k = N then 1 else 0) := by
  induction k generalizing c entry N oks with
  | zero =>
    refine ⟨c, 0, rfl, ?_, ?_, ?_⟩
    · intro _
      exact ⟨entry, hget, by rw [hn, Nat.sub_zero], rfl⟩
    · intro h0
      omega
    · rw [if_neg (by omega)]
  | succ k ih =>
    cases oks with
    | nil => simp at hlen; omega
    | cons ok rest =>
      rcases N with _ | _ | m
      · omega
      · have hk0 : k = 0 := by omega
        subst hk0
        have hstep := handle_attachment_last c id ok entry hget hrec hn
        refine ⟨c.remove id, 1, ?_, ?_, ?_, ?_⟩
        · simp [dispatchTrace, hstep]
        · intro h
          omega
        · intro _
          exact Cache.get_remove_self c id
        · simp
      · have hstep := handle_attachment_mid c id ok entry m hget hrec hn
        have hget2 : (c.insert id
            { entry with email := { entry.email with num_attachments := some (m + 1) } }).get id
            = some { entry with email := { entry.email with num_attachments := some (m + 1) } } :=
          Cache.get_insert_self c id _
        have hlen2 : rest.length = m + 1 := by simpa using hlen
        obtain ⟨ck, removals, htr, hlt, heqN, hrem⟩ :=
          ih (c.insert id { entry with email := { entry.email with num_attachments := some (m + 1) } })
             { entry with email := { entry.email with num_attachments := some (m + 1) } }
             (m + 1) rest hget2 hrec rfl (by omega) hlen2 (by omega)
        refine ⟨ck, removals, ?_, ?_, ?_, ?_⟩
        · simp only [List.take_succ_cons, dispatchTrace, hstep, htr]
          simp
        · intro hlt2
          obtain ⟨ek, h1, h2, h3⟩ := hlt (by omega)
          refine ⟨ek, h1, ?_, h3⟩
          rw [h2]
          congr 1
          omega
        · intro hEq
          exact heqN (by omega)
        · rw [hrem]
          by_cases h : k = m + 1
          · rw [if_pos h, if_pos (by omega)]
          · rw [if_neg h, if_neg (by omega)]

def c1addr : Address := ⟨"b@x", 1, 1000000, 10, 0, "tok", "dropbox", "/b", 0⟩

def c1entry : CacheEntry := ⟨⟨"m1", "s@y", ["b@x"], none, 100, some 2⟩, c1addr⟩

def c1cache : Cache := Cache.empty.insert "m1" c1entry

/-- Witness for C1 at a concrete session with countdown 2 and one failed
upload among the two dispatch calls. -/
theorem c1_session_countdown_no_leak_witness :
    c1cache.get "m1" = some c1entry
    ∧ c1entry.email.recipients ≠ []
    ∧ c1entry.email.num_attachments = some 2
    ∧ (∃ ck removals,
        dispatchTrace c1cache "m1" ([true, false].take 2) = some (ck, removals)
        ∧ (2 < 2 → ∃ ek, ck.get "m1" = some ek
              ∧ ek.email.num_attachments = some (2 - 2)
              ∧ ek.email.recipients = c1entry.email.recipients)
        ∧ (2 = 2 → ck.get "m1" = none)
        ∧ removals = (if 2 = 2 then 1 else 0)) :=
  ⟨by decide, by decide, by decide,
    c1_session_countdown_no_leak c1cache "m1" c1entry 2 2 [true, false]
      (by decide) (by decide) (by decide) (by decide) (by decide) (by decide)⟩

/-! ## C2 -/

def c2addr : Address := ⟨"b@x", 1, 1000000, 10, 0, "tok", "dropbox", "/b", 0⟩

def c2env : Env := ⟨[c2addr], false, false, true, false, false⟩

def c2email : Email := ⟨"u2", "s@y", ["b@x"], none, 100, some 0⟩

/-- C2 counterexample: an accepted email whose declared attachment count is
`Some(0)` DOES get a session registered — controllers.rs line 168 tests
`if let Some(_) = email.num_attachments`, not `> 0` — refuting the claim that
a zero declared count never causes registration. -/
theorem c2_zero_count_registers_counterexample :
    (process_email c2env c2email).outcome.isAccepted = true
    ∧ c2email.num_attachments = some 0
    ∧ (process_email c2env c2email).cache_insert.isSome = true := by decide

/-- C2 amended: one run of `postfix::email` registers a session in the cache
exactly when the email is accepted AND its declared attachment count is
present (`Some`, including `Some(0)`); an absent count never registers. -/
theorem c2_session_registration_iff (env : Env) (e : Email) :
    (process_email env e).cache_insert.isSome
      = ((process_email env e).outcome.isAccepted && e.num_attachments.isSome) := by
  obtain ⟨table, gaf, vsf, vso, ief, urf⟩ := env
  cases gaf <;> cases vsf <;> cases vso <;> cases ief <;> cases urf <;>
    cases hga : get_address table e.recipients <;>
      simp [process_email, Outcome.isAccepted, hga] <;>
      split <;>
      simp [Outcome.isAccepted] <;>
      cases e.num_attachments <;> simp

/-! ## C3 -/

/-- C3: an attachment-dispatch call whose email id has no session in the
cache does not produce a SessionNotFound error response: the source calls
`cache.get(&mail_id).unwrap()` (controllers.rs line 198), which panics —
modelled by the `none` (crash) result on the empty cache. -/
theorem c3_missing_session_crash :
    handle_attachment Cache.empty "deadbeef" true = none := rfl

/-! ## C4 -/

def c4addr : Address := ⟨"b@x", 1, 1000, 5, 5, "tok", "dropbox", "/b", 0⟩

def c4env : Env := ⟨[c4addr], false, false, true, false, false⟩

def c4email : Email := ⟨"u4", "s@y", ["b@x"], none, 2000, none⟩

/-- C4 counterexample: at the spec's own test vector (max_email_size 1000,
quota 5, received 5, size 2000) both limits are violated, yet the rejection
is the `Error::QuotaExceeded` variant (carrying the size-limit message) —
controllers.rs line 137 raises `Error::QuotaExceeded(msg)` on BOTH limit
paths, so the reason is never a distinct SizeExceeded. -/
theorem c4_both_limits_counterexample :
    is_mail_size_exceeded c4email.size c4addr.max_email_size = true
    ∧ c4addr.quota < c4addr.received + 1
    ∧ (process_email c4env c4email).outcome
        = .quotaExceeded (.sizeMsg "b@x" 1000) := by decide

/-- C4 amended: when the size limit is violated (whether or not quota also
is) the rejection carries the size-limit message, and when only the quota is
violated it carries the quota message — but in both cases the error variant
raised is `Error::QuotaExceeded`. -/
theorem c4_size_message_precedence (env : Env) (e : Email) (a : Address)
    (h1 : env.get_address_fails = false)
    (h2 : get_address env.table e.recipients = some a)
    (h3 : env.validate_sender_fails = false)
    (h4 : env.validate_sender_ok = true)
    (h5 : env.insert_email_fails = false) :
    (is_mail_size_exceeded e.size a.max_email_size = true →
      (process_email env e).outcome
        = .quotaExceeded (.sizeMsg a.address a.max_email_size))
    ∧ (is_mail_size_exceeded e.size a.max_email_size = false →
       a.quota < a.received + 1 →
      (process_email env e).outcome
        = .quotaExceeded (.quotaMsg a.address a.quota)) := by
  constructor
  · intro hsz
    simp [process_email, h1, h2, h3, h4, h5, hsz]
  · intro hsz hq
    simp [process_email, h1, h2, h3, h4, h5, hsz, hq]

/-- Witness for C4 at the both-limits-violated input. -/
theorem c4_size_message_precedence_witness :
    c4env.get_address_fails = false
    ∧ get_address c4env.table c4email.recipients = some c4addr
    ∧ ((is_mail_size_exceeded c4email.size c4addr.max_email_size = true →
        (process_email c4env c4email).outcome
          = .quotaExceeded (.sizeMsg c4addr.address c4addr.max_email_size))
      ∧ (is_mail_size_exceeded c4email.size c4addr.max_email_size = false →
         c4addr.quota < c4addr.received + 1 →
        (process_email c4env c4email).outcome
          = .quotaExceeded (.quotaMsg c4addr.address c4addr.quota))) :=
  ⟨by decide, by decide,
    c4_size_message_precedence c4env c4email c4addr rfl (by decide) rfl rfl rfl⟩

/-! ## C5 -/

/-- C5: one run of `postfix::email` executes the received-count increment
(`UPDATE addresses SET received = received + 1`, db.rs lines 125-144) exactly
once when the outcome is acceptance and zero times on every rejection path,
and a failing increment (the `update_received_fails` oracle) never yields an
accepted outcome. -/
theorem c5_increment_exactly_on_acceptance (env : Env) (e : Email) :
    ((process_email env e).increments
        = (if (process_email env e).outcome.isAccepted then 1 else 0))
    ∧ (env.update_received_fails = true →
        (process_email env e).outcome.isAccepted = false) := by
  obtain ⟨table, gaf, vsf, vso, ief, urf⟩ := env
  cases gaf <;> cases vsf <;> cases vso <;> cases ief <;> cases urf <;>
    cases hga : get_address table e.recipients <;>
      simp [process_email, Outcome.isAccepted, hga] <;>
      split <;>
      simp [Outcome.isAccepted]

def c5env : Env := ⟨[c2addr], false, false, true, false, true⟩

def c5email : Email := ⟨"u5", "s@y", ["b@x"], none, 100, some 1⟩

/-- Witness for C5 at a concrete run whose increment fails: zero increments
and no acceptance. -/
theorem c5_increment_exactly_on_acceptance_witness :
    c5env.update_received_fails = true
    ∧ (((process_email c5env c5email).increments
        = (if (process_email c5env c5email).outcome.isAccepted then 1 else 0))
      ∧ (c5env.update_received_fails = true →
          (process_email c5env c5email).outcome.isAccepted = false)) :=
  ⟨by decide, c5_increment_exactly_on_acceptance c5env c5email⟩

/-! ## C6 -/

def c6addr : Address := ⟨"b@x", 1, 16777216, 100, 0, "tok", "dropbox", "/b", 0⟩

def c6env : Env := ⟨[c6addr], false, false, true, false, false⟩

def c6email : Email := ⟨"u6", "s@y", ["b@x"], none, 16777217, none⟩

/-- C6 counterexample: with max_email_size 16777216 (= 2^24) and declared
size 16777217, the exact integers satisfy size > max, but both values round
to the same f32 (16777216.0), so the `as f32` comparison of controllers.rs
lines 110-111 does not flag the size limit and the email is accepted. -/
theorem c6_f32_rounding_counterexample :
    c6addr.max_email_size < (c6email.size : Int)
    ∧ is_mail_size_exceeded c6email.size c6addr.max_email_size = false
    ∧ (process_email c6env c6email).outcome.isAccepted = true := by decide

/-- C6 amended: the size-limit check compares the two values after rounding
each to f32 (24-bit significand); this agrees with the exact integer
comparison whenever both values are below 2^24 (where f32 is exact), and can
differ above that. -/
theorem c6_size_check_exact_below_2pow24 (size m : Nat)
    (hs : size < 2 ^ 24) (hm : m < 2 ^ 24) :
    is_mail_size_exceeded size (Int.ofNat m) = decide ((m : Int) < (size : Int)) := by
  simp [is_mail_size_exceeded, f32ofInt, f32round_of_lt hs, f32round_of_lt hm]

/-- Witness for C6 at exactly-representable values 2000 and 1000. -/
theorem c6_size_check_exact_below_2pow24_witness :
    2000 < 2 ^ 24
    ∧ 1000 < 2 ^ 24
    ∧ is_mail_size_exceeded 2000 (Int.ofNat 1000)
        = decide ((1000 : Int) < (2000 : Int)) :=
  ⟨by decide, by decide,
    c6_size_check_exact_below_2pow24 2000 1000 (by decide) (by decide)⟩

/-! ## C7 -/

/-- C7: if exactly one candidate in the email's recipient list resolves in
the address directory, then any accepted outcome carries the email narrowed
to exactly that resolved address, and the recipient `insert_email` persists
(`email.recipients[0]`) is exactly that address. -/
theorem c7_recipient_narrowing (env : Env) (e e2 : Email)
    (hcount : e.recipients.countP (resolves env.table) = 1)
    (hacc : (process_email env e).acceptedEmail = some e2) :
    ∃ a, get_address env.table e.recipients = some a
      ∧ e2.recipients = [a.address]
      ∧ insert_email_recipient e2 = some a.address := by
  obtain ⟨a, hga, he2⟩ := process_email_accepted_inv hacc
  obtain ⟨hmem, hres⟩ := get_address_mem hga
  have hfilter := filter_eq_single e.recipients a.address (resolves env.table) hcount hmem hres
  refine ⟨a, hga, ?_, ?_⟩
  · rw [he2]
    exact hfilter
  · rw [he2]
    simp [insert_email_recipient, hfilter]

def c7addr : Address := ⟨"b@x", 1, 1000000, 10, 0, "tok", "dropbox", "/b", 0⟩

def c7env : Env := ⟨[c7addr], false, false, true, false, false⟩

def c7email : Email := ⟨"u7", "s@y", ["a@x", "b@x", "c@x"], none, 100, none⟩

def c7narrowed : Email := ⟨"u7", "s@y", ["b@x"], none, 100, none⟩

/-- Witness for C7 at the spec's test vector: candidates a@x, b@x, c@x with
only b@x in the directory. -/
theorem c7_recipient_narrowing_witness :
    c7email.recipients.countP (resolves c7env.table) = 1
    ∧ (process_email c7env c7email).acceptedEmail = some c7narrowed
    ∧ (∃ a, get_address c7env.table c7email.recipients = some a
        ∧ c7narrowed.recipients = [a.address]
        ∧ insert_email_recipient c7narrowed = some a.address) :=
  ⟨by decide, by decide,
    c7_recipient_narrowing c7env c7email c7narrowed (by decide) (by decide)⟩

/-! ## C8 -/

def c8addrA : Address := ⟨"a@x", 1, 1000000, 10, 0, "tokA", "dropbox", "/a", 0⟩

def c8addrB : Address := ⟨"b@x", 2, 1000000, 10, 0, "tokB", "dropbox", "/b", 0⟩

/-- C8: with both candidates provisioned but the table rows ordered b@x
before a@x, `get_address` (no ORDER BY, first row of the scan) returns the
b@x row, while the first candidate in LIST order that resolves is a@x — the
first-match-in-list-order contract of the source's own doc comment (db.rs
lines 82-84) is not met.  The None half does hold: no row is returned exactly
when no candidate is in the table. -/
theorem c8_table_order_vs_list_order :
    get_address [c8addrB, c8addrA] ["a@x", "b@x"] = some c8addrB
    ∧ firstResolving [c8addrB, c8addrA] ["a@x", "b@x"] = some "a@x"
    ∧ c8addrB.address = "b@x" := by decide

/-! ## C9 -/

def c9email : Email := ⟨"u9", "s@y", ["nobody@x"], none, 100, some 2⟩

def c9req : MailgunReq := ⟨some "application/json", true, true, c9email, [true, true]⟩

def c9env : Env := ⟨[], false, false, true, false, false⟩

/-- C9 counterexample: a pull-model request whose attachments all succeed is
acknowledged as success even though the admission pipeline rejects the very
same email (here: no recipient resolves in an empty directory) — the
admission call in `mailgun` is commented out (controllers.rs lines 336-341),
so success is not conditioned on acceptance. -/
theorem c9_no_admission_counterexample :
    mailgun_handler c9req = true
    ∧ (process_email c9env c9req.email).outcome.isAccepted = false := by decide

/-- C9 amended: the pull-model handler acknowledges success exactly when the
Content-Type is one of the two supported values, both payload parses succeed,
and every attachment's fetch-and-dispatch succeeds (so any single failure
rejects the whole request); no admission-pipeline check is performed on this
path. -/
theorem c9_batch_ack_iff (r : MailgunReq) :
    mailgun_handler r = true ↔
      ((r.content_type = some "application/json"
        ∨ r.content_type = some "application/x-www-form-urlencoded")
       ∧ r.parse_email_ok = true ∧ r.parse_attachments_ok = true
       ∧ r.fetch_dispatch_ok.all (fun b => b) = true) := by
  obtain ⟨ct, pe, pa, em, oks⟩ := r
  cases ct with
  | none => simp [mailgun_handler]
  | some s => cases pe <;> cases pa <;> simp [mailgun_handler]

/-! ## C10 -/

/-- C10: `insert_email`'s read of `recipients[0]` is in bounds exactly when
the recipient list is nonempty; the narrowed list left by admission is
nonempty exactly when the resolved address string equals (char for char, the
Rust `==` on String) at least one original candidate; and an attachment
handled for a session whose email has an empty recipient list crashes
(`&email.recipients[0]` at controllers.rs line 204), modelled as `none`. -/
theorem c10_recipient_index_safety (e : Email) (a : Address) (c : Cache)
    (id : String) (ok : Bool) (entry : CacheEntry) :
    ((insert_email_recipient e).isSome ↔ e.recipients ≠ [])
    ∧ (e.recipients.filter (fun r => r == a.address) ≠ [] ↔ a.address ∈ e.recipients)
    ∧ (c.get id = some entry → entry.email.recipients = [] →
        handle_attachment c id ok = none) := by
  refine ⟨?_, ?_, ?_⟩
  · simp [insert_email_recipient]
  · simp [Ne, List.filter_eq_nil_iff, not_forall]
  · intro hget hrec
    simp [handle_attachment, hget, hrec]

def c10addr : Address := ⟨"b@x", 1, 1000000, 10, 0, "tok", "dropbox", "/b", 0⟩

def c10entry : CacheEntry := ⟨⟨"m10", "s@y", [], none, 100, some 1⟩, c10addr⟩

def c10cache : Cache := Cache.empty.insert "m10" c10entry

def c10email : Email := ⟨"u10", "s@y", ["a@x", "b@x"], none, 100, none⟩

/-- Witness for C10 at a concrete email and a cached session whose recipient
list is empty. -/
theorem c10_recipient_index_safety_witness :
    c10cache.get "m10" = some c10entry
    ∧ c10entry.email.recipients = []
    ∧ (((insert_email_recipient c10email).isSome ↔ c10email.recipients ≠ [])
      ∧ (c10email.recipients.filter (fun r => r == c10addr.address) ≠ []
          ↔ c10addr.address ∈ c10email.recipients)
      ∧ (c10cache.get "m10" = some c10entry → c10entry.email.recipients = [] →
          handle_attachment c10cache "m10" true = none)) :=
  ⟨by decide, by decide,
    c10_recipient_index_safety c10email c10addr c10cache "m10" true c10entry⟩

end Vaulty
